import Mathlib

/-!
Shallow embedding of the `cpu-usage` repository (files `cpu.c`, `cpup.c`,
`cpus.c`): CPU counter records, the delta computation, the aggregator,
process-stat parsing, the process ranker, and the per-variant main loops.
C `uint64_t` arithmetic is modelled as `Nat` with explicit reduction
modulo `2 ^ 64`; C `int` values produced by comparators are modelled as
`Int` with explicit 32-bit truncation where the source converts a 64-bit
value to `int`.  `qsort` is modelled as the stable comparator-consistent
sort `List.insertionSort` over the comparator's nonpositive-result
relation.
-/

namespace CpuUsage

/-- The modulus of C `uint64_t` arithmetic, `2 ^ 64`. -/
def W : Nat := 18446744073709551616

/-- C `uint64_t` addition: wraps modulo `2 ^ 64`. -/
def add64 (a b : Nat) : Nat := (a + b) % W

/-- C `uint64_t` subtraction `a - b`: wraps modulo `2 ^ 64` on underflow. -/
def sub64 (a b : Nat) : Nat := (a + (W - b % W)) % W

/-- C conversion of a `uint64_t` value to a 32-bit `int`
(gcc semantics: keep the low 32 bits, two's complement). -/
def toInt32 (n : Nat) : Int :=
  let m := n % 4294967296
  if m < 2147483648 then (m : Int) else (m : Int) - 4294967296

/-- `cputime_t` of `cpu.c` / `cpup.c` / `cpus.c`: the ten `uint64_t`
counters of a `/proc/stat` cpu line. -/
structure Cputime where
  user : Nat
  nice : Nat
  system : Nat
  idle : Nat
  iowait : Nat
  irq : Nat
  softirq : Nat
  steal : Nat
  guest : Nat
  guest_nice : Nat
  deriving Repr, DecidableEq

/-- The all-zero counter record (`memset(.., 0, ..)`). -/
def zeroTime : Cputime := ⟨0, 0, 0, 0, 0, 0, 0, 0, 0, 0⟩

/-- `get_total` of the source: sum of all ten counters in `uint64_t`
arithmetic. -/
def get_total (t : Cputime) : Nat :=
  (t.user + t.nice + t.system + t.idle + t.iowait + t.irq + t.softirq
    + t.steal + t.guest + t.guest_nice) % W

/-- `get_load` of the source: sum of the counters other than `idle` and
`iowait`, in `uint64_t` arithmetic. -/
def get_load (t : Cputime) : Nat :=
  (t.user + t.nice + t.system + t.irq + t.softirq
    + t.steal + t.guest + t.guest_nice) % W

/-- `get_idle` of the source: `idle + iowait`. -/
def get_idle (t : Cputime) : Nat := (t.idle + t.iowait) % W

/-- `get_iowait` of the source. -/
def get_iowait (t : Cputime) : Nat := t.iowait % W

/-- One field of `get_diff`: the `DIFF(x)` macro of the source.
`tmp` is a `uint64_t`, so the guard `tmp < 0` is identically false and
the wrapped difference is stored unchanged. -/
def diffField (b a : Nat) : Nat :=
  let tmp := sub64 a b
  if tmp < 0 then 0 else tmp

/-- `get_diff` of the source: field-wise `uint64_t` difference
`after - before` (the intended clamp to 0 is dead code). -/
def get_diff (before after : Cputime) : Cputime where
  user := diffField before.user after.user
  nice := diffField before.nice after.nice
  system := diffField before.system after.system
  idle := diffField before.idle after.idle
  iowait := diffField before.iowait after.iowait
  irq := diffField before.irq after.irq
  softirq := diffField before.softirq after.softirq
  steal := diffField before.steal after.steal
  guest := diffField before.guest after.guest
  guest_nice := diffField before.guest_nice after.guest_nice

/-- The denominator floor of `show_result`:
`if (total == 0) total = 1;`. -/
def flooredTotal (t : Nat) : Nat := if t = 0 then 1 else t

/-- The usage percentage `(float) load / total * 100` of `show_result`,
modelled as an exact rational. -/
def usagePct (load total : Nat) : ℚ := (load : ℚ) / (total : ℚ) * 100

/-- The aggregate usage percentage printed by `show_result` for a delta
record (post-floor denominator). -/
def show_usage (d : Cputime) : ℚ :=
  usagePct (get_load d) (flooredTotal (get_total d))

/-- The plain (unwrapped) sum of the ten counter fields, used to state
when `get_total` does not overflow. -/
def sumFields (t : Cputime) : Nat :=
  t.user + t.nice + t.system + t.idle + t.iowait + t.irq + t.softirq
    + t.steal + t.guest + t.guest_nice

/-- In `cpup.c`'s `show_result`, the value handed to
`show_result_process`: the aggregate delta's total, floored to 1. -/
def show_result_passed_total (before after : Cputime) : Nat :=
  flooredTotal (get_total (get_diff before after))

end CpuUsage

namespace CpuUsage

/-- `process_t` of `cpup.c`: per-process data from `/proc/[pid]/stat`. -/
structure Process where
  pid : Nat
  comm : String
  state : Char
  load : Nat
  utime : Nat
  stime : Nat
  cutime : Nat
  cstime : Nat
  priority : Nat
  nice : Nat
  deriving Repr, DecidableEq

/-- `comp_pid` of `cpup.c`: `a->pid - b->pid` (pids fit in `int`, so the
subtraction is exact). -/
def comp_pid (a b : Process) : Int := (a.pid : Int) - (b.pid : Int)

/-- `comp_load` of `cpup.c`: the `uint64_t` difference
`b->load - a->load` converted to a C `int` (truncated to 32 bits). -/
def comp_load (a b : Process) : Int := toInt32 (sub64 b.load a.load)

/-- The `qsort(.., comp_pid)` call of `read_process`, modelled as the
stable sort consistent with the comparator. -/
def sortPid (l : List Process) : List Process :=
  List.insertionSort (fun a b => comp_pid a b ≤ 0) l

/-- The `qsort(.., comp_load)` call of `show_result_process`, modelled as
the stable sort consistent with the comparator.  The model determines
the program's order only where the comparator is consistent
(`comp_load a b` and `comp_load b a` have opposite signs); on
inconsistent inputs `qsort`'s behavior is unspecified. -/
def sortLoad (l : List Process) : List Process :=
  List.insertionSort (fun a b => comp_load a b ≤ 0) l

/-- The load-assignment walk of `show_result_process`: for each `after`
process, advance the `before` cursor while its pid is smaller, then set
`load = utime + stime`, minus the matching before entry's `utime + stime`
(in wrapping `uint64_t` arithmetic) when the pids coincide. -/
def assignLoads : List Process → List Process → List Process
  | _, [] => []
  | bs, a :: rest =>
    let bs2 := bs.dropWhile fun b => decide (b.pid < a.pid)
    let base := add64 a.utime a.stime
    let l :=
      match bs2 with
      | [] => base
      | b :: _ => if a.pid = b.pid then sub64 base (add64 b.utime b.stime) else base
    { a with load := l } :: assignLoads bs2 rest

/-- `show_result_process`'s ranking pipeline: assign loads over the two
pid-sorted lists, sort by the load comparator, and keep the first
`DISPLAY_PROCESS_NUM = 10` entries. -/
def rankProcesses (before after : List Process) : List Process :=
  (sortLoad (assignLoads before after)).take 10

end CpuUsage

namespace CpuUsage

/-- One raw `/proc/[pid]/stat` line, already split at the parentheses:
the command name between the first `(` and the last `)`, then the
single-character state, then the numeric tokens that follow the state. -/
structure StatLine where
  comm : String
  state : Char
  toks : List Nat
  deriving Repr, DecidableEq

/-- One numeric `/proc` directory entry together with its stat record:
`file = none` models `fopen` failing on the record, `some none` a stream
that opens but yields no line from `fgets`, and `some (some l)` a stream
whose first line is `l`. -/
structure ProcEntry where
  pid : Nat
  file : Option (Option StatLine)
  deriving Repr, DecidableEq

/-- `parse_stat` of `cpup.c`: `sscanf` binds the state and, after ten
skipped tokens, `utime stime cutime cstime priority nice`; fewer than 7
bound fields (fewer than 16 numeric tokens) is a failure.  The command
name is truncated to `PR_NAME_LEN - 1 = 15` characters. -/
def parse_stat (pid : Nat) (s : StatLine) : Option Process :=
  if s.toks.length < 16 then none
  else
    some
      { pid := pid
        comm := s.comm.take 15
        state := s.state
        load := 0
        utime := (s.toks.getD 10 0) % W
        stime := (s.toks.getD 11 0) % W
        cutime := (s.toks.getD 12 0) % W
        cstime := (s.toks.getD 13 0) % W
        priority := s.toks.getD 14 0
        nice := s.toks.getD 15 0 }

/-- The possible outcomes of `read_pid_stat`: a parsed process, a clean
`FAILURE` return (the entry is skipped), or the undefined behavior of
the `fopen`-failure path, which jumps to `error:` and executes
`fclose(NULL)` (a crash on glibc/musl). -/
inductive PidStatResult where
  | ok (p : Process)
  | skip
  | crash
  deriving Repr, DecidableEq

/-- `read_pid_stat` of `cpup.c`: when `fopen` returns `NULL` the code
jumps to `error:` and calls `fclose(file)` with `file == NULL` —
undefined behavior, modelled as `crash`.  When the stream opens but
`fgets` or `parse_stat` fails, `fclose` gets a valid stream and the
function cleanly returns `FAILURE` (`skip`). -/
def read_pid_stat (e : ProcEntry) : PidStatResult :=
  match e.file with
  | none => .crash
  | some none => .skip
  | some (some l) =>
    match parse_stat e.pid l with
    | none => .skip
    | some p => .ok p

/-- The collection loop of `read_process` of `cpup.c`: skipped entries
contribute nothing, a crashing entry kills the whole run (`none`). -/
def collectProcs : List ProcEntry → Option (List Process)
  | [] => some []
  | e :: rest =>
    match read_pid_stat e with
    | .crash => none
    | .skip => collectProcs rest
    | .ok p => (collectProcs rest).map (p :: ·)

/-- The process list produced by a completed `read_process` of
`cpup.c`: the collected entries sorted by pid, or `none` when a
crashing entry prevents the collection from completing. -/
def read_process (entries : List ProcEntry) : Option (List Process) :=
  (collectProcs entries).map sortPid

/-- The overall outcomes of `read_process`: a collected list
(`SUCCESS`), the clean `FAILURE` when `opendir` fails, or the crash
inherited from `read_pid_stat`'s `fclose(NULL)` path. -/
inductive ReadProcessResult where
  | success (l : List Process)
  | failure
  | crash
  deriving Repr, DecidableEq

/-- `read_process` of `cpup.c` including its result code: `FAILURE`
only when the `/proc` directory cannot be opened, a crash when some
entry's record cannot be opened, `SUCCESS` with the sorted list
otherwise. -/
def read_process_run (openOk : Bool) (entries : List ProcEntry) :
    ReadProcessResult :=
  if !openOk then .failure
  else
    match collectProcs entries with
    | none => .crash
    | some l => .success (sortPid l)

end CpuUsage

namespace CpuUsage

/-- A read of the system counter source: whether `fopen` succeeded, and
the successive lines (each as its list of numeric tokens after the
`cpu`/`cpuN` tag) that `fgets` can deliver. -/
structure StatSource where
  openOk : Bool
  lines : List (List Nat)
  deriving Repr, DecidableEq

/-- `sscanf` of one cpu counter line over a base record: the first
fields are overwritten by the tokens, fields beyond the token count keep
the base record's contents. -/
def parseCpuLine (base : Cputime) (toks : List Nat) : Cputime where
  user := (toks.getD 0 base.user) % W
  nice := (toks.getD 1 base.nice) % W
  system := (toks.getD 2 base.system) % W
  idle := (toks.getD 3 base.idle) % W
  iowait := (toks.getD 4 base.iowait) % W
  irq := (toks.getD 5 base.irq) % W
  softirq := (toks.getD 6 base.softirq) % W
  steal := (toks.getD 7 base.steal) % W
  guest := (toks.getD 8 base.guest) % W
  guest_nice := (toks.getD 9 base.guest_nice) % W

/-- The per-core reading loop of `read_stat` (`cpu.c` and `cpup.c`):
`num` lines, each with at least 4 tokens, parsed over a zeroed record. -/
def readCores : Nat → List (List Nat) → Option (List Cputime)
  | 0, _ => some []
  | _ + 1, [] => none
  | n + 1, t :: rest =>
    if t.length < 4 then none
    else (readCores n rest).map (parseCpuLine zeroTime t :: ·)

/-- `read_stat` of `cpu.c`: the whole `times` array (aggregate entry
included) is zeroed by `memset`, then the aggregate line and, when
`num > 1`, one line per core are parsed; fewer than 4 tokens on any
required line is a failure. -/
def read_stat_c (num : Nat) (src : StatSource) :
    Option (Cputime × List Cputime) :=
  if !src.openOk then none
  else
    match src.lines with
    | [] => none
    | aggToks :: rest =>
      if aggToks.length < 4 then none
      else
        let agg := parseCpuLine zeroTime aggToks
        if num > 1 then (readCores num rest).map (agg, ·)
        else some (agg, [])

/-- `read_stat` of `cpup.c`: the `memset` covers only the `cpu_num`
per-core entries, so the aggregate entry at index `cpu_num` keeps its
previous contents (`stale`) for every field the line does not supply. -/
def read_stat_p (num : Nat) (stale : Cputime) (src : StatSource) :
    Option (Cputime × List Cputime) :=
  if !src.openOk then none
  else
    match src.lines with
    | [] => none
    | aggToks :: rest =>
      if aggToks.length < 4 then none
      else
        let agg := parseCpuLine stale aggToks
        if num > 1 then (readCores num rest).map (agg, ·)
        else some (agg, [])

/-- `read_stat` of `cpus.c`: a single record, zeroed by `memset` before
parsing the aggregate line; at least 4 tokens required. -/
def read_stat_s (src : StatSource) : Option Cputime :=
  if !src.openOk then none
  else
    match src.lines with
    | [] => none
    | aggToks :: _ =>
      if aggToks.length < 4 then none
      else some (parseCpuLine zeroTime aggToks)

end CpuUsage

namespace CpuUsage

/-- The polling loop shared by `cpu.c` and `cpup.c`: each cycle reads,
aborts the whole run with `EXIT_FAILURE = 1` when the read fails, and
otherwise shows one result and continues.  Returns the exit status (or
`none` while the finite trace has not ended the run) and the number of
results shown. -/
def cycleLoop : List Bool → Option Nat × Nat
  | [] => (none, 0)
  | r :: rest =>
    if r then
      let p := cycleLoop rest
      (p.1, p.2 + 1)
    else (some 1, 0)

/-- `main` of `cpu.c` over a trace of read outcomes: the initial
`read_stat` and then one `read_stat` per cycle; any failure exits with
`EXIT_FAILURE`. -/
def cpu_main (initRead : Bool) (cycles : List Bool) : Option Nat × Nat :=
  if initRead then cycleLoop cycles else (some 1, 0)

/-- `main` of `cpup.c`: each read step is `read_stat` and
`read_process`; the step succeeds only when both do. -/
def cpup_main (initRead : Bool × Bool) (cycles : List (Bool × Bool)) :
    Option Nat × Nat :=
  if initRead.1 && initRead.2 then
    cycleLoop (cycles.map fun x => x.1 && x.2)
  else (some 1, 0)

/-- `main` of `cpus.c` over a trace of read outcomes: the results of
`read_stat` are ignored, every cycle shows a result, and the loop never
exits on its own. -/
def cpus_main (reads : List Bool) : Option Nat × Nat :=
  match reads with
  | [] => (none, 0)
  | _ :: rest => (none, rest.length)

end CpuUsage

namespace CpuUsage

/- Helper lemmas (shared; not tied to a single claim). -/

/-- A trace of cycle reads containing a failure makes the shared polling
loop exit with status 1, having shown exactly one result per successful
cycle before the first failure. -/
theorem cycleLoop_of_mem_false (c : List Bool) (h : false ∈ c) :
    (cycleLoop c).1 = some 1 ∧
      (cycleLoop c).2 = (c.takeWhile (fun x => x)).length := by
  induction c with
  | nil => cases h
  | cons r rest ih =>
    cases r with
    | false => simp [cycleLoop]
    | true =>
      have hrest : false ∈ rest := by
        rcases List.mem_cons.mp h with h1 | h1
        · cases h1
        · exact h1
      have := ih hrest
      simp [cycleLoop, List.takeWhile_cons, this.1, this.2]

end CpuUsage

namespace CpuUsage

/-- Claim C1: the Delta Engine is claimed to clamp decreasing counters to
0; in the source the clamp guard compares an unsigned value with 0 and is
dead, so a decreasing field wraps modulo `2 ^ 64`: diffing `user = 1`
against `user = 0` yields `2 ^ 64 - 1`, not `0`. -/
theorem c1_get_diff_wraps_on_decrease :
    (get_diff ⟨1, 0, 0, 0, 0, 0, 0, 0, 0, 0⟩ ⟨0, 0, 0, 0, 0, 0, 0, 0, 0, 0⟩).user
        = W - 1
      ∧ W - 1 ≠ 0 := by
  exact ⟨by decide, by decide⟩

/-- Claim C2: the per-process load delta is claimed to clamp to 0 when
the before sum exceeds the after sum; the source subtracts in `uint64_t`
with no clamp, so a matching pid whose tick sum decreased gets the
wrapped load `2 ^ 64 - 1`, not `0`. -/
theorem c2_process_load_wraps :
    (assignLoads [⟨1, "b", 'S', 0, 1, 0, 0, 0, 0, 0⟩]
          [⟨1, "a", 'S', 0, 0, 0, 0, 0, 0, 0⟩]).map (fun p => p.load)
        = [W - 1]
      ∧ W - 1 ≠ 0 := by
  exact ⟨by decide, by decide⟩

/-- Claim C3: the ranked output is claimed to be sorted by load
descending; `comp_load` truncates the `uint64_t` load difference to a
32-bit `int`, so for loads `0` and `2 ^ 31 + 1` it is a consistent
comparator (negative in one direction, positive in the other) that
nevertheless orders the smaller load first, and every `qsort` that
respects it — the modelled sort included — keeps load `0` ahead of load
`2 ^ 31 + 1`. -/
theorem c3_rank_not_load_descending :
    (rankProcesses [] [⟨1, "a", 'S', 0, 0, 0, 0, 0, 0, 0⟩,
          ⟨2, "b", 'S', 0, 2147483649, 0, 0, 0, 0, 0⟩]).map (fun p => p.load)
        = [0, 2147483649]
      ∧ comp_load ⟨1, "a", 'S', 0, 0, 0, 0, 0, 0, 0⟩
          ⟨2, "b", 'S', 2147483649, 2147483649, 0, 0, 0, 0, 0⟩ < 0
      ∧ 0 < comp_load ⟨2, "b", 'S', 2147483649, 2147483649, 0, 0, 0, 0, 0⟩
          ⟨1, "a", 'S', 0, 0, 0, 0, 0, 0, 0⟩
      ∧ (0 : Nat) < 2147483649 := by
  exact ⟨by decide, by decide, by decide, by decide⟩

/-- Claim C4: `get_total` sums all ten fields and `get_load` sums the
same fields except `idle` and `iowait`, so for every delta record
`total = (load + idle + iowait)` in `uint64_t` arithmetic. -/
theorem c4_total_eq_load_add_idle_iowait (t : Cputime) :
    get_total t = (get_load t + t.idle + t.iowait) % W := by
  simp only [get_total, get_load, W]
  omega

end CpuUsage

namespace CpuUsage

/-- Claim C5 counterexample: for the delta with `user = 2 ^ 63` and
`idle = 2 ^ 63`, the ten-field `uint64_t` sum wraps to `total = 0`, yet
after the denominator floor the printed usage is `2 ^ 63 * 100`, not
`0`. -/
theorem c5_zero_total_usage_counterexample :
    get_total ⟨9223372036854775808, 0, 0, 9223372036854775808,
        0, 0, 0, 0, 0, 0⟩ = 0
      ∧ show_usage ⟨9223372036854775808, 0, 0, 9223372036854775808,
          0, 0, 0, 0, 0, 0⟩ ≠ 0 := by
  constructor
  · decide
  · norm_num [show_usage, usagePct, flooredTotal, get_total, get_load, W]

/-- Claim C5 (amended): for every delta whose ten-field sum stays below
`2 ^ 64` (no overflow), a zero total is floored to denominator 1 and the
usage is 0, and a positive total gives a usage percentage between 0 and
100. -/
theorem c5_usage_bounds (d : Cputime) (h : sumFields d < W) :
    (get_total d = 0 → show_usage d = 0)
      ∧ (0 < get_total d → 0 ≤ show_usage d ∧ show_usage d ≤ 100) := by
  have hsum : get_total d = sumFields d := by
    simp only [get_total, sumFields] at *
    exact Nat.mod_eq_of_lt h
  have hloadlt : d.user + d.nice + d.system + d.irq + d.softirq
      + d.steal + d.guest + d.guest_nice < W := by
    simp only [sumFields] at h
    omega
  have hload : get_load d = d.user + d.nice + d.system + d.irq + d.softirq
      + d.steal + d.guest + d.guest_nice := by
    simp only [get_load]
    exact Nat.mod_eq_of_lt hloadlt
  have hle : get_load d ≤ get_total d := by
    rw [hsum, hload]
    simp only [sumFields]
    omega
  constructor
  · intro h0
    have hz : get_load d = 0 := by omega
    simp [show_usage, usagePct, hz]
  · intro hpos
    have hfl : flooredTotal (get_total d) = get_total d := by
      simp only [flooredTotal]
      rw [if_neg (by omega)]
    have hq : (0 : ℚ) < (get_total d : ℚ) := by exact_mod_cast hpos
    constructor
    · simp only [show_usage, usagePct, hfl]
      positivity
    · simp only [show_usage, usagePct, hfl]
      rw [div_mul_eq_mul_div, div_le_iff₀ hq]
      have hleq : (get_load d : ℚ) ≤ (get_total d : ℚ) := by exact_mod_cast hle
      nlinarith [hleq]

/-- Witness for C5 (amended) at the spec's own scenario delta
(`user = 20`, `system = 10`, `idle = 20`). -/
theorem c5_usage_bounds_witness :
    sumFields ⟨20, 0, 10, 20, 0, 0, 0, 0, 0, 0⟩ < W
      ∧ ((get_total ⟨20, 0, 10, 20, 0, 0, 0, 0, 0, 0⟩ = 0 →
            show_usage ⟨20, 0, 10, 20, 0, 0, 0, 0, 0, 0⟩ = 0)
          ∧ (0 < get_total ⟨20, 0, 10, 20, 0, 0, 0, 0, 0, 0⟩ →
              0 ≤ show_usage ⟨20, 0, 10, 20, 0, 0, 0, 0, 0, 0⟩
                ∧ show_usage ⟨20, 0, 10, 20, 0, 0, 0, 0, 0, 0⟩ ≤ 100)) :=
  ⟨by decide, c5_usage_bounds ⟨20, 0, 10, 20, 0, 0, 0, 0, 0, 0⟩ (by decide)⟩

end CpuUsage

namespace CpuUsage

/-- Claim C6 counterexample: the `cpus` variant's main loop ignores the
result of `read_stat`, so a trace whose second read fails neither aborts
(exit stays `none`) nor stops: the following cycle is still processed
and two results are shown. -/
theorem c6_cpus_main_ignores_read_failure :
    false ∈ [true, false, true]
      ∧ cpus_main [true, false, true] = (none, 2) := by
  exact ⟨by decide, rfl⟩

/-- Claim C6 (amended): in the `cpu` and `cpup` variants any failing
read (source unavailable or a required line parsing to fewer than 4
fields) exits the run at once with status 1, having shown exactly one
result per successful cycle before the failure; the `cpus` variant
ignores read failures and never exits on its own. -/
theorem c6_fatal_read_aborts (i : Bool) (c : List Bool)
    (h : false ∈ i :: c) :
    (cpu_main i c).1 = some 1
      ∧ (cpu_main i c).2
          = (if i then (c.takeWhile (fun x => x)).length else 0)
      ∧ (∀ ip cp, false ∈ (ip.1 && ip.2) ::
            (cp.map fun x : Bool × Bool => x.1 && x.2) →
          (cpup_main ip cp).1 = some 1)
      ∧ (∀ s : List Bool, (cpus_main s).1 = none) := by
  refine ⟨?_, ?_, ?_, ?_⟩
  · cases i with
    | false => simp [cpu_main]
    | true =>
      have hc : false ∈ c := by
        rcases List.mem_cons.mp h with h1 | h1
        · cases h1
        · exact h1
      simp only [cpu_main, if_pos rfl]
      exact (cycleLoop_of_mem_false c hc).1
  · cases i with
    | false => simp [cpu_main]
    | true =>
      have hc : false ∈ c := by
        rcases List.mem_cons.mp h with h1 | h1
        · cases h1
        · exact h1
      simp only [cpu_main, if_pos rfl, if_pos trivial]
      exact (cycleLoop_of_mem_false c hc).2
  · intro ip cp hp
    cases hinit : ip.1 && ip.2 with
    | false => simp [cpup_main, hinit]
    | true =>
      have hcp : false ∈ cp.map fun x : Bool × Bool => x.1 && x.2 := by
        rw [hinit] at hp
        rcases List.mem_cons.mp hp with h1 | h1
        · cases h1
        · exact h1
      simp only [cpup_main, hinit, if_pos rfl]
      exact (cycleLoop_of_mem_false _ hcp).1
  · intro s
    cases s <;> rfl

/-- Witness for C6 (amended): a run whose second cycle read fails. -/
theorem c6_fatal_read_aborts_witness :
    false ∈ (true : Bool) :: [true, false]
      ∧ ((cpu_main true [true, false]).1 = some 1
          ∧ (cpu_main true [true, false]).2
              = (if true then
                  (List.takeWhile (fun x => x) [true, false]).length else 0)
          ∧ (∀ ip cp, false ∈ (ip.1 && ip.2) ::
                (cp.map fun x : Bool × Bool => x.1 && x.2) →
              (cpup_main ip cp).1 = some 1)
          ∧ (∀ s : List Bool, (cpus_main s).1 = none)) :=
  ⟨by decide, c6_fatal_read_aborts true [true, false] (by decide)⟩

end CpuUsage

namespace CpuUsage

/-- Claim C7: absent trailing counter fields are claimed to default to 0
in every variant; in `cpup.c` the `memset` covers only the `cpu_num`
per-core entries, so on a 4-field aggregate line the aggregate record
keeps the previous cycle's `guest_nice = 7` instead of 0, while `cpu.c`
(whose `memset` covers `num + 1` entries) yields 0 on the same input. -/
theorem c7_cpup_aggregate_keeps_stale_fields :
    (read_stat_p 1 ⟨0, 0, 0, 0, 0, 0, 0, 0, 0, 7⟩
          ⟨true, [[1, 2, 3, 4]]⟩).map (fun r => r.1.guest_nice) = some 7
      ∧ (read_stat_c 1 ⟨true, [[1, 2, 3, 4]]⟩).map
          (fun r => r.1.guest_nice) = some 0
      ∧ (read_stat_s ⟨true, [[1, 2, 3, 4]]⟩).map
          (fun r => r.guest_nice) = some 0
      ∧ (7 : Nat) ≠ 0 := by
  exact ⟨by decide, by decide, by decide, by decide⟩

/-- Claim C8: a process whose stat record cannot be opened is claimed
to be skipped non-fatally; in the source that path jumps to `error:`
and executes `fclose(NULL)` — undefined behavior that crashes on
glibc/musl — so the collection dies instead of succeeding.  A record
that opens but binds fewer than 7 fields is, by contrast, a genuine
clean skip. -/
theorem c8_unopenable_record_crashes :
    read_pid_stat ⟨5, none⟩ = PidStatResult.crash
      ∧ read_process_run true
          [⟨3, some (some ⟨"x", 'S',
              [0, 0, 0, 0, 0, 0, 0, 0, 0, 0, 4, 5, 0, 0, 1, 2]⟩)⟩,
            ⟨5, none⟩]
          = ReadProcessResult.crash
      ∧ read_pid_stat ⟨7, some (some ⟨"y", 'T', [1, 2, 3]⟩)⟩
          = PidStatResult.skip
      ∧ read_process_run true [⟨7, some (some ⟨"y", 'T', [1, 2, 3]⟩)⟩]
          = ReadProcessResult.success [] := by
  exact ⟨rfl, rfl, rfl, rfl⟩

/-- Claim C9: every process list a completed `read_process` collection
delivers is sorted ascending by pid, whatever the enumeration order of
the source. -/
theorem c9_read_process_sorted (entries : List ProcEntry)
    (l : List Process) (h : read_process entries = some l) :
    List.Sorted (fun a b : Process => a.pid ≤ b.pid) l := by
  have hs : ∀ m : List Process,
      List.Sorted (fun a b : Process => a.pid ≤ b.pid) (sortPid m) := by
    intro m
    have hcomp : List.Sorted (fun a b : Process => comp_pid a b ≤ 0)
        (sortPid m) := by
      haveI ht : IsTotal Process (fun a b => comp_pid a b ≤ 0) :=
        ⟨fun a b => by simp only [comp_pid]; omega⟩
      haveI htr : IsTrans Process (fun a b => comp_pid a b ≤ 0) :=
        ⟨fun a b c hab hbc => by
          simp only [comp_pid] at hab hbc ⊢
          omega⟩
      exact List.sorted_insertionSort _ _
    refine hcomp.imp ?_
    intro a b hab
    simp only [comp_pid] at hab
    omega
  cases hc : collectProcs entries with
  | none => rw [read_process, hc] at h; cases h
  | some m =>
    have hl : l = sortPid m := by
      rw [read_process, hc] at h
      simpa using h.symm
    rw [hl]
    exact hs m

/-- Witness for C9: a completed collection over two parseable entries
enumerated in descending pid order. -/
theorem c9_read_process_sorted_witness :
    read_process
        [⟨9, some (some ⟨"a", 'S',
            [0, 0, 0, 0, 0, 0, 0, 0, 0, 0, 4, 5, 0, 0, 1, 2]⟩)⟩,
          ⟨3, some (some ⟨"b", 'S',
            [0, 0, 0, 0, 0, 0, 0, 0, 0, 0, 6, 7, 0, 0, 1, 2]⟩)⟩]
        = some [⟨3, "b", 'S', 0, 6, 7, 0, 0, 1, 2⟩,
            ⟨9, "a", 'S', 0, 4, 5, 0, 0, 1, 2⟩]
      ∧ List.Sorted (fun a b : Process => a.pid ≤ b.pid)
          [⟨3, "b", 'S', 0, 6, 7, 0, 0, 1, 2⟩,
            ⟨9, "a", 'S', 0, 4, 5, 0, 0, 1, 2⟩] :=
  ⟨by decide,
    c9_read_process_sorted
      [⟨9, some (some ⟨"a", 'S',
          [0, 0, 0, 0, 0, 0, 0, 0, 0, 0, 4, 5, 0, 0, 1, 2]⟩)⟩,
        ⟨3, some (some ⟨"b", 'S',
          [0, 0, 0, 0, 0, 0, 0, 0, 0, 0, 6, 7, 0, 0, 1, 2]⟩)⟩]
      [⟨3, "b", 'S', 0, 6, 7, 0, 0, 1, 2⟩,
        ⟨9, "a", 'S', 0, 4, 5, 0, 0, 1, 2⟩]
      (by decide)⟩

/-- Claim C10: the total that `cpup.c`'s `show_result` hands to
`show_result_process` is floored to at least 1, so the per-process
percentage division never has a zero denominator. -/
theorem c10_process_total_at_least_one (before after : Cputime) :
    1 ≤ show_result_passed_total before after
      ∧ ((show_result_passed_total before after : ℚ) ≠ 0) := by
  have h : 1 ≤ show_result_passed_total before after := by
    unfold show_result_passed_total flooredTotal
    split <;> omega
  exact ⟨h, by exact_mod_cast Nat.one_le_iff_ne_zero.mp h⟩

end CpuUsage
